import Mathlib

/-!
# A verification model of the `bo` text editor core

Shallow embedding of the repository's core data model and operations:

* `Row`, the single-line buffer.  `row.rs` is not part of the sources at hand
  (only its callers are), so every `Row` operation is modelled from the spec
  (§4.1), with graphemes identified with `Char`s.
* `Document` (`document.rs`): ordered rows plus a bound filename, with the
  structural edit operations translated statement by statement.
  File-system effects (`open`, `save`) are made explicit by threading a pure
  map `String → Option String` from paths to the contents of the regular file
  stored there (`none` = no regular file at that path).
* `Editor` (`editor.rs`): cursor, viewport offset, modes, command buffers and
  the search-match ring, with keystroke processing translated from the source.
  The terminal backend is external; its screen size is carried as two fields
  of the editor state and its drawing calls (pure side effects on the screen)
  are dropped.

Rust `usize` arithmetic uses `saturating_sub`/`saturating_add` throughout the
translated code; `Nat` subtraction is saturating by definition, so `a - b`
and `a + b` on `Nat` model them exactly.
-/

namespace Bo

/-! ## List helpers

Small recursive counterparts of `Vec` operations used by the source
(`Vec::insert`, `Vec::remove`, and in-place mutation of one element). -/

/-- Replace the element at index `i` by `f` applied to it; out-of-range
indices leave the list unchanged (this models `Vec::get_mut(i)` returning
`None`). -/
def updateAt (f : α → α) : Nat → List α → List α
  | _, [] => []
  | 0, a :: t => f a :: t
  | n + 1, a :: t => a :: updateAt f n t

/-- Remove the element at index `i`.  `Vec::remove` panics out of range, but
every call site in the source is guarded by a bounds check, so the
out-of-range case (returning the list unchanged) is unreachable. -/
def removeAt : Nat → List α → List α
  | _, [] => []
  | 0, _ :: t => t
  | n + 1, a :: t => a :: removeAt n t

/-- Insert `a` before index `i`.  `Vec::insert` panics for `i > len`, but
every call site in the source is guarded, so the overflowing case
(returning the list unchanged) is unreachable. -/
def insertAt (a : α) : Nat → List α → List α
  | 0, l => a :: l
  | _ + 1, [] => []
  | n + 1, b :: t => b :: insertAt a n t

/-- Pair every element with its index, starting at `i` (the `enumerate()` of
the source's row loop). -/
def enumerate (i : Nat) : List α → List (Nat × α)
  | [] => []
  | a :: t => (i, a) :: enumerate (i + 1) t

/-! ## Row

Modelled from the spec: `row.rs` is not among the given sources.  Spec §4.1
describes the operations; grapheme clusters are identified with `Char`s
(ASCII-faithful), and per the Row invariant (§3) "Row itself performs
saturating arithmetic rather than failing". -/

structure Row where
  string : String
deriving Repr, DecidableEq

/-- `Row::from(text)`. -/
def Row.ofString (s : String) : Row := ⟨s⟩

/-- `Row::default()` is the empty row. -/
def Row.defaultRow : Row := ⟨""⟩

/-- Modelled from the spec: grapheme length of the row (§4.1 "report grapheme
length"). -/
def Row.len (r : Row) : Nat := r.string.length

/-- Modelled from the spec: "insert a character at a grapheme index (indices
beyond current length extend conceptually — ... out-of-range insert is a
no-op or appends, never fails)". -/
def Row.insert (r : Row) (i : Nat) (c : Char) : Row :=
  if r.len ≤ i then ⟨⟨r.string.data ++ [c]⟩⟩
  else ⟨⟨r.string.data.take i ++ c :: r.string.data.drop i⟩⟩

/-- Modelled from the spec: "delete the character at a grapheme index (no-op
if out of range)". -/
def Row.delete (r : Row) (i : Nat) : Row :=
  if i < r.len then ⟨⟨r.string.data.take i ++ r.string.data.drop (i + 1)⟩⟩
  else r

/-- Modelled from the spec: "append another Row's text to this Row's end". -/
def Row.append (r other : Row) : Row := ⟨r.string ++ other.string⟩

/-- Modelled from the spec: "split this Row at a grapheme index, truncating
it in place and returning a new Row holding the remainder".  The first
component is the truncated row, the second the remainder. -/
def Row.split (r : Row) (i : Nat) : Row × Row :=
  (⟨⟨r.string.data.take i⟩⟩, ⟨⟨r.string.data.drop i⟩⟩)

/-- First index at which `pat` occurs as a contiguous sublist of `hay`. -/
def firstMatchIdx (hay pat : List Char) : Option Nat :=
  match hay with
  | [] => if pat = [] then some 0 else none
  | _ :: t =>
    if pat.isPrefixOf hay then some 0
    else (firstMatchIdx t pat).map (· + 1)

/-- Modelled from the spec: "literal substring search reporting presence and
first-match start index". -/
def Row.find (r : Row) (pat : String) : Option Nat :=
  firstMatchIdx r.string.data pat.data

/-- Modelled from the spec: literal substring presence. -/
def Row.containsPat (r : Row) (pat : String) : Bool :=
  (r.find pat).isSome

/-- Modelled from the spec: "trim trailing whitespace in place". -/
def Row.trim_end_inplace (r : Row) : Row :=
  ⟨⟨(r.string.data.reverse.dropWhile Char.isWhitespace).reverse⟩⟩

/-- Modelled from the spec: is the row's text empty. -/
def Row.isEmptyRow (r : Row) : Bool := r.string.isEmpty

/-! ## Splitting file contents into lines

`Document::open` splits file contents with Rust's `str::lines`: pieces are
separated by `'\n'`, one final empty piece produced by a trailing newline is
dropped, and a trailing `'\r'` of each piece is removed. -/

/-- Split on `'\n'`; always returns at least one (possibly empty) piece. -/
def splitOnNl : List Char → List (List Char)
  | [] => [[]]
  | c :: rest =>
    match splitOnNl rest with
    | [] => [[]]
    | h :: t => if c = '\n' then [] :: h :: t else (c :: h) :: t

/-- Remove one trailing `'\r'`, as `str::lines` does for `\r\n` endings. -/
def chompCR (l : List Char) : List Char :=
  if l.getLast? = some '\r' then l.dropLast else l

/-- The line decomposition used by Rust's `str::lines`. -/
def linesCore (l : List Char) : List (List Char) :=
  let pieces := splitOnNl l
  let pieces := if pieces.getLast? = some [] then pieces.dropLast else pieces
  pieces.map chompCR

/-- Rust's `str::lines`, as a pure function on `String`. -/
def rustLines (s : String) : List String :=
  (linesCore s.data).map (fun l => ⟨l⟩)

/-! ## Document (`document.rs`) -/

structure Document where
  rows : List Row
  filename : String
deriving Repr, DecidableEq

/-- `Document::default()` (document.rs:20-27). -/
def Document.defaultDoc : Document :=
  { rows := [Row.ofString ""], filename := "" }

/-- `Document::new` (document.rs:30-33). -/
def Document.new (rows : List Row) (filename : String) : Document :=
  { rows := rows, filename := filename }

/-- `Document::new_empty` (document.rs:35-41). -/
def Document.new_empty (filename : String) : Document :=
  { rows := [Row.ofString ""], filename := filename }

/-- `Document::num_rows` (document.rs:129-131). -/
def Document.num_rows (d : Document) : Nat := d.rows.length

/-- `Document::is_empty` (document.rs:124-126). -/
def Document.isEmptyDoc (d : Document) : Bool := d.num_rows = 0

/-- `Document::get_row` (document.rs:119-121). -/
def Document.get_row (d : Document) (index : Nat) : Option Row :=
  d.rows.get? index

/-- `Document::row_for_line_number` (document.rs:140-142). -/
def Document.row_for_line_number (d : Document) (line_number : Nat) : Option Row :=
  d.get_row (line_number - 1)

/-- `Document::last_line_number` (document.rs:146-148). -/
def Document.last_line_number (d : Document) : Nat := d.num_rows

/-- `Document::swap_filename` (document.rs:47-55): `.<basename>.swp` in the
same directory.  `std::path`'s `parent`/`file_name` are modelled by
splitting the path at its last `'/'` (the part up to and including the last
slash is the parent, the rest the basename). -/
def Document.swap_filename (filename : String) : String :=
  let rev := filename.data.reverse
  let stripped_filename : List Char := (rev.takeWhile (fun c => c ≠ '/')).reverse
  let parent : List Char := (rev.dropWhile (fun c => c ≠ '/')).reverse
  (⟨parent⟩ : String) ++ "." ++ (⟨stripped_filename⟩ : String) ++ ".swp"

/-- `Document::open` (document.rs:61-79) over an explicit file system
`fs : String → Option String` (`some` = a regular file with these contents
exists at the path).  The `Err` branch of the source only fires when a
read fails after the existence check, which the pure file-system model
excludes, so the result is a plain `Document`. -/
def Document.openDoc (fs : String → Option String) (filename : String) : Document :=
  match fs filename with
  | none => Document.new_empty filename
  | some real_contents =>
    let file_contents :=
      match fs (Document.swap_filename filename) with
      | some swap_contents => swap_contents
      | none => real_contents
    { rows := (rustLines file_contents).map Row.ofString, filename := filename }

/-- The byte stream `Document::save` writes: every row, newline-terminated,
in order (document.rs:107-110). -/
def serializeRows : List Row → String
  | [] => ""
  | r :: rest => r.string ++ "\n" ++ serializeRows rest

/-- `Document::save` (document.rs:104-116) as a file-system transformer: a
no-op when no filename is bound, otherwise the bound path now holds the
serialized rows and the swap file is removed (the removal happens after the
write, so it wins on the final state). -/
def Document.save (d : Document) (fs : String → Option String) : String → Option String :=
  if d.filename = "" then fs
  else fun q =>
    if q = Document.swap_filename d.filename then none
    else if q = d.filename then some (serializeRows d.rows)
    else fs q

/-- `Document::trim_trailing_spaces` (document.rs:95-99). -/
def Document.trim_trailing_spaces (d : Document) : Document :=
  { d with rows := d.rows.map Row.trim_end_inplace }

/-- `Document::insert` (document.rs:160-173). -/
def Document.insert (d : Document) (c : Char) (x y : Nat) : Document :=
  if d.num_rows ≤ y then
    { d with rows := d.rows ++ [Row.defaultRow.insert 0 c] }
  else
    { d with rows := updateAt (fun row => row.insert x c) y d.rows }

/-- `Document::delete` (document.rs:175-190). -/
def Document.delete (d : Document) (x from_x y : Nat) : Document :=
  if d.num_rows ≤ y then d
  else
    match d.rows.get? y with
    | none => d
    | some current_row =>
      if x = 0 ∧ from_x = 0 ∧ 0 < y then
        { d with
          rows := updateAt (fun previous_row => previous_row.append current_row) (y - 1)
            (removeAt y d.rows) }
      else
        { d with rows := updateAt (fun row => row.delete x) y d.rows }

/-- `Document::insert_newline` (document.rs:192-211). -/
def Document.insert_newline (d : Document) (x y : Nat) : Document :=
  if d.num_rows < y then d
  else
    match d.rows.get? y with
    | none => d
    | some current_row =>
      if x < current_row.len - 1 then
        let truncated := (current_row.split x).1
        let split_row := (current_row.split x).2
        { d with
          rows := insertAt split_row (y + 1) (updateAt (fun _ => truncated) y d.rows) }
      else
        if y = d.num_rows ∨ y + 1 = d.num_rows then
          { d with rows := d.rows ++ [Row.defaultRow] }
        else
          { d with rows := insertAt Row.defaultRow (y + 1) d.rows }

/-- `Document::delete_row` (document.rs:213-222). -/
def Document.delete_row (d : Document) (y : Nat) : Document :=
  if d.num_rows < y then d
  else if d.num_rows = 1 then
    { d with rows := updateAt (fun row => { row with string := "" }) 0 d.rows }
  else if (d.rows.get? y).isSome then
    { d with rows := removeAt y d.rows }
  else d

/-! ## Editor (`editor.rs`)

The editor state machine.  Terminal-only concerns are dropped from the
state: drawing calls, cursor-shape changes, the mouse-event buffer, the help
text, the `should_quit` flag, the display `Config` and the dirty-tracking
hash (none of which the claims touch).  The terminal size, an external
input, is carried as the `term_width`/`term_height` fields, and
`Terminal::middle_of_screen_line_number` is modelled from the spec as the
screen's vertical midpoint `height / 2`. -/

inductive Mode
  | Normal
  | Insert
deriving Repr, DecidableEq

inductive Boundary
  | Start
  | End
deriving Repr, DecidableEq

inductive Direction
  | Up
  | Down
  | Left
  | Right
deriving Repr, DecidableEq

/-- The key events the dispatch code distinguishes; every other
`termion::event::Key` variant falls into the source's `_ => ()` arms and is
collapsed into `Other`. -/
inductive Key
  | Char (c : Char)
  | Esc
  | Backspace
  | Other
deriving Repr, DecidableEq

/-- Rust's `str::parse::<usize>` restricted to the all-digit strings the
repetition buffer produces (defined over the character list; overflow and
sign prefixes are out of the modelled input space). -/
def parseUsize (s : String) : Option Nat :=
  if s.data ≠ [] ∧ s.data.all (fun c => c.isDigit) then
    some (s.data.foldl (fun n c => n * 10 + (c.toNat - '0'.toNat)) 0)
  else none

structure Position where
  x : Nat
  y : Nat
deriving Repr, DecidableEq

structure ViewportOffset where
  rows : Nat
  columns : Nat
deriving Repr, DecidableEq

/-- The number of spaces a Tab inserts (editor.rs:20). -/
def SPACES_PER_TAB : Nat := 4

/-- Swap-save threshold (editor.rs:21). -/
def SWAP_SAVE_EVERY : Nat := 100

structure Editor where
  cursor_position : Position
  offset : ViewportOffset
  document : Document
  message : String
  mode : Mode
  command_buffer : String
  normal_command_buffer : List String
  search_matches : List (Position × Position)
  current_search_match_index : Nat
  alternate_screen : Bool
  /-- `u8` in the source; kept as a `Nat` saturated at 255 where it grows. -/
  unsaved_edits : Nat
  /-- Terminal width in character cells (external collaborator input). -/
  term_width : Nat
  /-- Terminal height in character cells (external collaborator input). -/
  term_height : Nat
deriving Repr, DecidableEq

namespace Editor

/-- Modelled from the spec: the screen's vertical midpoint
(`Terminal::middle_of_screen_line_number`, terminal backend code absent
from the sources). -/
def middle_of_screen_line_number (e : Editor) : Nat := e.term_height / 2

/-- `Editor::current_row_index` (editor.rs:575-577): absolute document row
of the cursor. -/
def current_row_index (e : Editor) : Nat :=
  e.cursor_position.y + e.offset.rows

/-- `Editor::current_x_position` (editor.rs:579-581): absolute document
column of the cursor. -/
def current_x_position (e : Editor) : Nat :=
  e.cursor_position.x + e.offset.columns

/-- `Editor::current_row` (editor.rs:594-596).  The source `unwrap`s; the
default row stands in for the panic, and every claim below is stated in
states where the row exists. -/
def current_row (e : Editor) : Row :=
  (e.document.get_row e.current_row_index).getD Row.defaultRow

def display_message (e : Editor) (message : String) : Editor :=
  { e with message := message }

def reset_message (e : Editor) : Editor :=
  { e with message := "" }

def reset_search (e : Editor) : Editor :=
  { e with search_matches := [], current_search_match_index := 0 }

def enter_insert_mode (e : Editor) : Editor :=
  { e with mode := Mode.Insert }

def enter_normal_mode (e : Editor) : Editor :=
  { e with mode := Mode.Normal }

def start_receiving_command (e : Editor) : Editor :=
  { e with command_buffer := e.command_buffer.push ':' }

def start_receiving_search_pattern (e : Editor) : Editor :=
  { e with command_buffer := e.command_buffer.push '/' }

def stop_receiving_command (e : Editor) : Editor :=
  { e with command_buffer := "" }

def is_receiving_command (e : Editor) : Bool :=
  !e.command_buffer.isEmpty

def revert_to_main_screen (e : Editor) : Editor :=
  { e.reset_message with alternate_screen := false }

/-- `Editor::pop_normal_command_repetitions` (editor.rs:251-262).  The
source `unwrap`s the parse; the buffer only ever holds single digits, so
the parse cannot fail there, and `0` stands in for the panic. -/
def pop_normal_command_repetitions (e : Editor) : Nat × Editor :=
  let times :=
    match e.normal_command_buffer.length with
    | 0 => 1
    | _ + 1 => (parseUsize (String.join e.normal_command_buffer)).getD 0
  (times, { e with normal_command_buffer := [] })

/-- `Editor::move_cursor_to_position_x` (editor.rs:914-927). -/
def move_cursor_to_position_x (e : Editor) (x : Nat) : Editor :=
  let term_width := e.term_width
  if term_width < x then
    { e with
      cursor_position := { e.cursor_position with x := term_width - 1 },
      offset := { e.offset with columns := x - term_width - e.offset.columns + 1 } }
  else
    { e with
      cursor_position := { e.cursor_position with x := x },
      offset := { e.offset with columns := 0 } }

/-- `Editor::move_cursor_to_position_y` (editor.rs:888-912). -/
def move_cursor_to_position_y (e : Editor) (y : Nat) : Editor :=
  let max_line_number := e.document.last_line_number
  let term_height := e.term_height
  let mid := e.middle_of_screen_line_number
  let y := min y max_line_number
  if y < mid then
    { e with
      offset := { e.offset with rows := 0 },
      cursor_position := { e.cursor_position with y := y } }
  else if max_line_number - mid < y then
    let new_offset := max_line_number - term_height
    { e with
      offset := { e.offset with rows := new_offset },
      cursor_position := { e.cursor_position with y := y - new_offset } }
  else if e.offset.rows ≤ y ∧ y ≤ e.offset.rows + term_height then
    { e with cursor_position := { e.cursor_position with y := y - e.offset.rows } }
  else
    { e with
      offset := { e.offset with rows := y - mid },
      cursor_position := { e.cursor_position with y := mid } }

/-- `Editor::goto_x_y` (editor.rs:815-818). -/
def goto_x_y (e : Editor) (x y : Nat) : Editor :=
  (e.move_cursor_to_position_x x).move_cursor_to_position_y y

/-- `Editor::goto_line` (editor.rs:809-812). -/
def goto_line (e : Editor) (line_number x_position : Nat) : Editor :=
  e.goto_x_y x_position (line_number - 1)

/-- One iteration of the `for` loop in `Editor::move_cursor`
(editor.rs:832-873), acting on the loop's local
`(x, y, offset_x, offset_y)`.  `self.current_row()` and the document length
read the editor state from before the loop, which the loop does not write. -/
def move_cursor_step (e : Editor) (direction : Direction) :
    Nat × Nat × Nat × Nat → Nat × Nat × Nat × Nat :=
  fun (x, y, offset_x, offset_y) =>
    let term_height := e.term_height - 1
    let term_width := e.term_width - 1
    match direction with
    | Direction.Up =>
      if y = 0 then (x, y, offset_x, offset_y - 1)
      else (x, y - 1, offset_x, offset_y)
    | Direction.Down =>
      if y + offset_y < e.document.last_line_number - 1 then
        if y < term_height then (x, y + 1, offset_x, offset_y)
        else (x, y, offset_x, offset_y + 1)
      else (x, y, offset_x, offset_y)
    | Direction.Left =>
      if term_width ≤ x then (x, y, offset_x - 1, offset_y)
      else (x - 1, y, offset_x, offset_y)
    | Direction.Right =>
      if x + offset_x ≤ e.current_row.len - 1 then
        if x < term_width then (x + 1, y, offset_x, offset_y)
        else (x, y, offset_x + 1, offset_y)
      else (x, y, offset_x, offset_y)

/-- `Editor::move_cursor` (editor.rs:821-886). -/
def move_cursor (e : Editor) (direction : Direction) (times : Nat) : Editor :=
  let start : Nat × Nat × Nat × Nat :=
    (e.cursor_position.x, e.cursor_position.y, e.offset.columns, e.offset.rows)
  let s := (move_cursor_step e direction)^[times] start
  let x := s.1
  let y := s.2.1
  let offset_x := s.2.2.1
  let offset_y := s.2.2.2
  let e1 :=
    { e with
      cursor_position := { e.cursor_position with y := y },
      offset := { rows := offset_y, columns := offset_x } }
  if e1.mode = Mode.Normal then
    { e1 with cursor_position := { e1.cursor_position with x := min (e1.current_row.len - 1) x } }
  else
    { e1 with cursor_position := { e1.cursor_position with x := x } }

/-- `Editor::goto_next_search_match` (editor.rs:765-784). -/
def goto_next_search_match (e : Editor) : Editor :=
  if e.search_matches.isEmpty then e
  else
    let new_index :=
      if e.current_search_match_index = e.search_matches.length - 1 then 0
      else e.current_search_match_index + 1
    let e := { e with current_search_match_index := new_index }
    let e := e.display_message
      ("Match " ++ toString (new_index + 1) ++ "/" ++ toString e.search_matches.length)
    match e.search_matches.get? new_index with
    | some search_match => e.goto_line search_match.1.y search_match.1.x
    | none => e

/-- `Editor::goto_previous_search_match` (editor.rs:787-806). -/
def goto_previous_search_match (e : Editor) : Editor :=
  if e.search_matches.isEmpty then e
  else
    let new_index :=
      if e.current_search_match_index = 0 then e.search_matches.length - 1
      else e.current_search_match_index - 1
    let e := { e with current_search_match_index := new_index }
    let e := e.display_message
      ("Match " ++ toString (new_index + 1) ++ "/" ++ toString e.search_matches.length)
    match e.search_matches.get? new_index with
    | some search_match => e.goto_line search_match.1.y search_match.1.x
    | none => e

/-- The match pair recorded for one row hit in `Editor::process_search_command`
(editor.rs:404-417): start at the first occurrence on the 1-based line,
end at start + 1 + pattern length (`pattern.len()` counts bytes; in the
`Char`-grapheme model it is the pattern's character count). -/
def rowSearchMatch (search_pattern : String) (row_index : Nat) (row : Row) :
    Option (Position × Position) :=
  if row.containsPat search_pattern then
    match row.find search_pattern with
    | some match_start_index =>
      some
        (⟨match_start_index, row_index + 1⟩,
         ⟨match_start_index + 1 + search_pattern.length, row_index + 1⟩)
    | none => none
  else none

/-- `Editor::process_search_command` (editor.rs:401-423): reset, scan every
row in order, report the count, point the current index at the last match
and immediately advance. -/
def process_search_command (e : Editor) (search_pattern : String) : Editor :=
  let e := e.reset_search
  let found :=
    (enumerate 0 e.document.rows).filterMap
      (fun p => rowSearchMatch search_pattern p.1 p.2)
  let e := { e with search_matches := found }
  let e := e.display_message (toString found.length ++ " matches")
  let e := { e with current_search_match_index := found.length - 1 }
  e.goto_next_search_match

/-- `Editor::goto_start_or_end_of_line` (editor.rs:677-684). -/
def goto_start_or_end_of_line (e : Editor) (boundary : Boundary) : Editor :=
  match boundary with
  | Boundary.Start => e.move_cursor_to_position_x 0
  | Boundary.End => e.move_cursor_to_position_x (e.current_row.len - 1)

/-- `Editor::goto_start_or_end_of_document` (editor.rs:669-674). -/
def goto_start_or_end_of_document (e : Editor) (boundary : Boundary) : Editor :=
  match boundary with
  | Boundary.Start => e.goto_line 1 0
  | Boundary.End => e.goto_line e.document.last_line_number 0

/-- `Editor::goto_first_non_whitespace` (editor.rs:699-703);
`Navigator::find_index_of_first_non_whitespace` is modelled from the spec
(§4.3): "first index in the row that is not a space, or none if the row is
blank". -/
def goto_first_non_whitespace (e : Editor) : Editor :=
  match e.current_row.string.data.findIdx? (fun c => ¬ c.isWhitespace) with
  | some x => e.move_cursor_to_position_x x
  | none => e

/-- `Editor::goto_first_line_of_terminal` (editor.rs:717-719). -/
def goto_first_line_of_terminal (e : Editor) : Editor :=
  e.goto_line (e.offset.rows + 1) 0

/-- `Editor::goto_middle_of_terminal` (editor.rs:706-714). -/
def goto_middle_of_terminal (e : Editor) : Editor :=
  e.goto_line (e.middle_of_screen_line_number + e.offset.rows + 1) 0

/-- `Editor::goto_last_line_of_terminal` (editor.rs:722-729). -/
def goto_last_line_of_terminal (e : Editor) : Editor :=
  e.goto_line (e.term_height + e.offset.rows + 1) 0

/-- `Editor::goto_percentage_in_document` (editor.rs:732-736). -/
def goto_percentage_in_document (e : Editor) (percent : Nat) : Editor :=
  let percent := min percent 100
  e.goto_line (e.document.last_line_number * percent / 100) 0

/-- `Editor::delete_current_line` (editor.rs:599-606). -/
def delete_current_line (e : Editor) : Editor :=
  let e := { e with document := e.document.delete_row e.current_row_index }
  if e.document.num_rows - 1 ≤ e.cursor_position.y then
    e.goto_line e.document.num_rows e.cursor_position.x
  else
    { e with cursor_position := { e.cursor_position with x := 0 } }

/-- `Editor::delete_current_grapheme` (editor.rs:609-615). -/
def delete_current_grapheme (e : Editor) : Editor :=
  { e with
    document := e.document.delete e.current_x_position e.current_x_position e.current_row_index }

/-- `Editor::insert_newline_after_current_line` (editor.rs:618-624). -/
def insert_newline_after_current_line (e : Editor) : Editor :=
  let next_row_index := e.current_row_index + 1
  let e := { e with document := e.document.insert_newline e.current_row.len e.current_row_index }
  (e.goto_x_y 0 next_row_index).enter_insert_mode

/-- `Editor::insert_newline_before_current_line` (editor.rs:627-631). -/
def insert_newline_before_current_line (e : Editor) : Editor :=
  let e := { e with document := e.document.insert_newline 0 e.current_row_index }
  (e.goto_x_y 0 e.current_row_index).enter_insert_mode

/-- `Editor::append_to_line` (editor.rs:633-637). -/
def append_to_line (e : Editor) : Editor :=
  ((e.enter_insert_mode.goto_start_or_end_of_line Boundary.End).move_cursor Direction.Right 1)

/-- `Editor::process_normal_command_n_times` (editor.rs:496-509).  The word
(`'b'`/`'w'`) and paragraph (`'{'`/`'}'`) motions dispatch to `Navigator`
functions whose code is absent from the sources and which no claim
exercises; they are left as the identity. -/
def process_normal_command_n_times (e : Editor) (c : Char) (n : Nat) : Editor :=
  if c = 'h' then e.move_cursor Direction.Left n
  else if c = 'j' then e.move_cursor Direction.Down n
  else if c = 'k' then e.move_cursor Direction.Up n
  else if c = 'l' then e.move_cursor Direction.Right n
  else if c = '%' then e.goto_percentage_in_document n
  else if c = 'b' ∨ c = 'w' ∨ c = '\x7b' ∨ c = '\x7d' then e
  else e

/-- `Editor::process_normal_command` (editor.rs:445-493).  The
`'m'` (matching symbol) and `'J'` (join with separator) commands call
`Navigator`/`Document` code absent from the sources and exercised by no
claim; they are left as the identity. -/
def process_normal_command (e : Editor) (key : Key) : Editor :=
  let e := if key = Key.Esc then e.reset_message.reset_search else e
  match key with
  | Key.Char c =>
    if c = '0' then
      if e.normal_command_buffer.isEmpty then e.goto_start_or_end_of_line Boundary.Start
      else { e with normal_command_buffer := e.normal_command_buffer ++ [c.toString] }
    else if c = '1' ∨ c = '2' ∨ c = '3' ∨ c = '4' ∨ c = '5' ∨ c = '6' ∨ c = '7' ∨ c = '8'
        ∨ c = '9' then
      { e with normal_command_buffer := e.normal_command_buffer ++ [c.toString] }
    else if c = 'i' then e.enter_insert_mode
    else if c = ':' then e.start_receiving_command
    else if c = '/' then e.start_receiving_search_pattern
    else if c = 'G' then e.goto_start_or_end_of_document Boundary.End
    else if c = 'g' then e.goto_start_or_end_of_document Boundary.Start
    else if c = '$' then e.goto_start_or_end_of_line Boundary.End
    else if c = '^' then e.goto_first_non_whitespace
    else if c = 'H' then e.goto_first_line_of_terminal
    else if c = 'M' then e.goto_middle_of_terminal
    else if c = 'L' then e.goto_last_line_of_terminal
    else if c = 'm' then e
    else if c = 'n' then e.goto_next_search_match
    else if c = 'N' then e.goto_previous_search_match
    else if c = 'q' then e.revert_to_main_screen
    else if c = 'd' then e.delete_current_line
    else if c = 'x' then e.delete_current_grapheme
    else if c = 'o' then e.insert_newline_after_current_line
    else if c = 'O' then e.insert_newline_before_current_line
    else if c = 'A' then e.append_to_line
    else if c = 'J' then e
    else
      let popped := e.pop_normal_command_repetitions
      popped.2.process_normal_command_n_times c popped.1
  | _ => e

/-- `Editor::save_to_swap_file` (editor.rs:387-391): the write is a pure
file-system effect; on the editor state it only resets the unsaved-edit
counter. -/
def save_to_swap_file (e : Editor) : Editor :=
  { e with unsaved_edits := 0 }

/-- `Editor::process_insert_command` (editor.rs:512-567).  Note that the
`Esc` arm returns before the unsaved-edit accounting. -/
def process_insert_command (e : Editor) (pressed_key : Key) : Editor :=
  match pressed_key with
  | Key.Esc => e.enter_normal_mode
  | _ =>
    let e :=
      match pressed_key with
      | Key.Backspace =>
        if e.cursor_position.x = 0 then
          if 0 < e.cursor_position.y then
            let previous_line_len :=
              ((e.document.get_row (e.current_row_index - 1)).getD Row.defaultRow).len
            let e := { e with document := e.document.delete 0 0 e.current_row_index }
            e.goto_x_y previous_line_len (e.current_row_index - 1)
          else e
        else
          let e :=
            { e with
              document :=
                e.document.delete (e.current_x_position - 1) e.current_x_position
                  e.current_row_index }
          e.move_cursor Direction.Left 1
      | Key.Char '\n' =>
        let e := { e with document := e.document.insert_newline e.current_x_position e.current_row_index }
        e.goto_x_y 0 (e.current_row_index + 1)
      | Key.Char '\t' =>
        let e := (fun st : Editor => { st with
            document := st.document.insert ' ' st.current_x_position st.current_row_index })^[SPACES_PER_TAB] e
        e.move_cursor Direction.Right SPACES_PER_TAB
      | Key.Char c =>
        let e := { e with document := e.document.insert c e.current_x_position e.current_row_index }
        e.move_cursor Direction.Right 1
      | _ => e
    let e := { e with unsaved_edits := min (e.unsaved_edits + 1) 255 }
    if SWAP_SAVE_EVERY ≤ e.unsaved_edits then e.save_to_swap_file else e

/-- `Editor::process_received_command` (editor.rs:266-344).  The `:`-prefixed
command vocabulary (quit/save/open/...) drives persistence and process exit,
which no claim exercises; only the search prefix is interpreted, the rest is
the identity on the modelled state. -/
def process_received_command (e : Editor) : Editor :=
  match e.command_buffer.data with
  | [] => e
  | c :: rest =>
    if c = '/' then e.process_search_command ⟨rest⟩
    else e

/-- `Editor::process_keystroke` (editor.rs:175-197). -/
def process_keystroke (e : Editor) (pressed_key : Key) : Editor :=
  if e.is_receiving_command then
    match pressed_key with
    | Key.Esc => e.stop_receiving_command
    | Key.Char '\n' => e.process_received_command.stop_receiving_command
    | Key.Char c => { e with command_buffer := e.command_buffer.push c }
    | Key.Backspace => { e with command_buffer := ⟨e.command_buffer.data.dropLast⟩ }
    | _ => e
  else
    match e.mode with
    | Mode.Normal => e.process_normal_command pressed_key
    | Mode.Insert => e.process_insert_command pressed_key

end Editor

/-! ## Claim-side definitions and witness fixtures -/

/-- Written from the words of claim C9 (spec §4.4, "Direct jump to an
arbitrary line ... centering rule"): given the document length, the screen
height, the screen's vertical midpoint, the current vertical offset and the
target line, return the new vertical offset and the new screen row.  If the
target lies before the midpoint, the offset is pinned to 0; if it lies
beyond `document length − midpoint`, to `document length − screen height`;
if the target already falls inside the currently visible window, the offset
is unchanged and the screen row is `target − offset`; otherwise the target
is recentered onto the midpoint. -/
def centering_rule_spec (doc_length screen_height midpoint old_offset target : Nat) :
    Nat × Nat :=
  if target < midpoint then
    (0, target)
  else if doc_length - midpoint < target then
    (doc_length - screen_height, target - (doc_length - screen_height))
  else if old_offset ≤ target ∧ target ≤ old_offset + screen_height then
    (old_offset, target - old_offset)
  else
    (target - midpoint, midpoint)

/-- The index step performed by one "advance" through the search-match ring
of `n` matches. -/
def nextRingIdx (n i : Nat) : Nat :=
  if i = n - 1 then 0 else i + 1

/-- A concrete editor state used by the witnesses: text rows, cursor,
viewport offset and mode are the parameters the claims vary; the terminal
is 80×24 and all remaining state is at its initial value. -/
def sampleEditor (rows : List String) (cx cy offset_rows offset_cols : Nat) (m : Mode) :
    Editor :=
  { cursor_position := ⟨cx, cy⟩
    offset := ⟨offset_rows, offset_cols⟩
    document := ⟨rows.map Row.ofString, "f.txt"⟩
    message := ""
    mode := m
    command_buffer := ""
    normal_command_buffer := []
    search_matches := []
    current_search_match_index := 0
    alternate_screen := false
    unsaved_edits := 0
    term_width := 80
    term_height := 24 }

/-- The empty file system: no regular file exists anywhere. -/
def fsEmpty : String → Option String := fun _ => none

/-! ## Helper lemmas: list surgery -/

theorem length_updateAt (f : α → α) : ∀ (n : Nat) (l : List α),
    (updateAt f n l).length = l.length
  | 0, [] => rfl
  | _ + 1, [] => rfl
  | 0, _ :: _ => rfl
  | n + 1, _ :: t => congrArg Nat.succ (length_updateAt f n t)

theorem length_removeAt : ∀ (n : Nat) (l : List α), n < l.length →
    (removeAt n l).length = l.length - 1
  | _, [], h => absurd h (by simp)
  | 0, _ :: t, _ => by simp [removeAt]
  | n + 1, a :: t, h => by
    have ht : n < t.length := by simpa using Nat.lt_of_succ_lt_succ h
    have := length_removeAt n t ht
    simp only [removeAt, List.length_cons, this]
    omega

theorem length_insertAt (a : α) : ∀ (n : Nat) (l : List α), n ≤ l.length →
    (insertAt a n l).length = l.length + 1
  | 0, l, _ => by simp [insertAt]
  | n + 1, [], h => absurd h (by simp)
  | n + 1, b :: t, h => by
    have := length_insertAt a n t (by simpa using Nat.le_of_succ_le_succ h)
    simp only [insertAt, List.length_cons, this]

theorem updateAt_singleton (f : α → α) (a : α) : updateAt f 0 [a] = [f a] := rfl

/-- Removing row `i + 1` and folding it by `f` into row `i`, expressed by
`take`/`drop` slicing. -/
theorem updateAt_removeAt_succ (f : α → α) (d0 : α) : ∀ (l : List α) (i : Nat),
    i + 1 < l.length →
    updateAt f i (removeAt (i + 1) l)
      = l.take i ++ f ((l.get? i).getD d0) :: l.drop (i + 2)
  | [], i, h => absurd h (by simp)
  | a :: t, 0, h => by
    match t, h with
    | b :: t', _ => simp [removeAt, updateAt]
  | a :: t, i + 1, h => by
    have ht : i + 1 < t.length := by simpa using Nat.lt_of_succ_lt_succ h
    simp only [removeAt, updateAt, List.take_succ_cons, List.drop_succ_cons,
      List.get?_cons_succ, List.cons_append]
    exact congrArg (a :: ·) (updateAt_removeAt_succ f d0 t i ht)

theorem mem_enumerate : ∀ (l : List α) (i : Nat) (p : Nat × α),
    p ∈ enumerate i l ↔ ∃ j, l.get? j = some p.2 ∧ p.1 = i + j
  | [], i, p => by simp [enumerate]
  | a :: t, i, p => by
    simp only [enumerate, List.mem_cons, mem_enumerate t (i + 1) p]
    constructor
    · rintro (rfl | ⟨j, hj, hp⟩)
      · exact ⟨0, by simp⟩
      · exact ⟨j + 1, by simpa using hj, by omega⟩
    · rintro ⟨j, hj, hp⟩
      match j, hj, hp with
      | 0, hj, hp =>
        left
        simp only [List.get?_cons_zero, Option.some.injEq] at hj
        obtain ⟨px, py⟩ := p
        simp_all
      | j + 1, hj, hp =>
        right
        exact ⟨j, by simpa using hj, by omega⟩

/-! ## Helper lemmas: Document row counts -/

theorem num_rows_insert_pos (d : Document) (c : Char) (x y : Nat)
    (h : 1 ≤ d.num_rows) : 1 ≤ (d.insert c x y).num_rows := by
  unfold Document.insert
  split
  · simp [Document.num_rows]
  · simpa [Document.num_rows, length_updateAt] using h

theorem num_rows_delete_pos (d : Document) (x fx y : Nat)
    (h : 1 ≤ d.num_rows) : 1 ≤ (d.delete x fx y).num_rows := by
  unfold Document.delete
  split
  · exact h
  · rename_i hy
    cases hg : d.rows.get? y with
    | none => simp only [hg]; exact h
    | some row =>
      simp only [hg]
      split
      · rename_i hxy
        have hlt : y < d.rows.length := by
          simpa [Document.num_rows] using Nat.lt_of_not_le hy
        simp only [Document.num_rows, length_updateAt,
          length_removeAt y d.rows hlt]
        omega
      · simpa [Document.num_rows, length_updateAt] using h

theorem num_rows_insert_newline_pos (d : Document) (x y : Nat)
    (h : 1 ≤ d.num_rows) : 1 ≤ (d.insert_newline x y).num_rows := by
  unfold Document.insert_newline
  split
  · exact h
  · rename_i hy
    cases hg : d.rows.get? y with
    | none => simp only [hg]; exact h
    | some row =>
      have hlt : y < d.rows.length := by
        rcases List.get?_eq_some.mp hg with ⟨hl, _⟩
        exact hl
      simp only [hg]
      split
      · have : y + 1 ≤ (updateAt (fun _ => (row.split x).1) y d.rows).length := by
          rw [length_updateAt]; omega
        simp only [Document.num_rows, length_insertAt _ _ _ this, length_updateAt]
        omega
      · split
        · simp [Document.num_rows]
        · have : y + 1 ≤ d.rows.length := by omega
          simp only [Document.num_rows, length_insertAt _ _ _ this]
          omega

theorem num_rows_delete_row_pos (d : Document) (y : Nat)
    (h : 1 ≤ d.num_rows) : 1 ≤ (d.delete_row y).num_rows := by
  unfold Document.delete_row
  split
  · exact h
  · split
    · rename_i h1
      simp [Document.num_rows, length_updateAt, Document.num_rows] at h1 ⊢
      omega
    · split
      · rename_i hne hs
        have hlt : y < d.rows.length := by
          rcases Option.isSome_iff_exists.mp hs with ⟨r, hr⟩
          rcases List.get?_eq_some.mp hr with ⟨hl, _⟩
          exact hl
        simp only [Document.num_rows, length_removeAt y d.rows hlt]
        simp only [Document.num_rows] at h hne
        omega
      · exact h

/-- C1 (amended): the row-clearing behaviour of `delete_row` on a single-row
document. -/
theorem delete_row_single (d : Document) (y : Nat) (h : d.num_rows = 1) :
    (d.delete_row y).num_rows = 1 ∧
      (y ≤ 1 → (d.delete_row y).rows.map Row.string = [""]) := by
  rcases List.length_eq_one.mp (by simpa [Document.num_rows] using h) with ⟨r, hr⟩
  unfold Document.delete_row
  simp only [h, hr]
  constructor
  · split
    · simp [Document.num_rows, hr] at h ⊢
    · simp [Document.num_rows, updateAt]
  · intro hy
    split
    · omega
    · simp [updateAt]

/-- C1: the claim quantifies over `Document::new`, which stores exactly the
row list it is given — including the empty one (the repository's own test
`test_document_is_empty` builds `Document::new(vec![], ...)` and asserts it
is empty), so the "at least one row" invariant fails for it. -/
theorem c1_counterexample : ¬ 1 ≤ (Document.new [] "test.rs").num_rows := by
  decide

/-- C1 (amended): every Document produced by `default`, `new_empty`, or
`open` of a path with no regular file has at least one row; every public
mutator (`insert`, `delete`, `insert_newline`, `delete_row`,
`trim_trailing_spaces`) preserves having at least one row; and `delete_row`
on a single-row document never removes the row — for an in-range index it
clears its text instead.  (`Document::new` itself stores whatever row list
it is given, including the empty one.) -/
theorem c1_theorem :
    1 ≤ Document.defaultDoc.num_rows ∧
    (∀ f, 1 ≤ (Document.new_empty f).num_rows) ∧
    (∀ fs f, fs f = none → 1 ≤ (Document.openDoc fs f).num_rows) ∧
    (∀ (d : Document) (c : Char) (x y : Nat), 1 ≤ d.num_rows →
      1 ≤ (d.insert c x y).num_rows) ∧
    (∀ (d : Document) (x fx y : Nat), 1 ≤ d.num_rows →
      1 ≤ (d.delete x fx y).num_rows) ∧
    (∀ (d : Document) (x y : Nat), 1 ≤ d.num_rows →
      1 ≤ (d.insert_newline x y).num_rows) ∧
    (∀ (d : Document) (y : Nat), 1 ≤ d.num_rows →
      1 ≤ (d.delete_row y).num_rows) ∧
    (∀ (d : Document), 1 ≤ d.num_rows → 1 ≤ d.trim_trailing_spaces.num_rows) ∧
    (∀ (d : Document) (y : Nat), d.num_rows = 1 →
      (d.delete_row y).num_rows = 1 ∧
        (y ≤ 1 → (d.delete_row y).rows.map Row.string = [""])) := by
  refine ⟨by decide, fun f => by simp [Document.new_empty, Document.num_rows],
    fun fs f hf => ?_, num_rows_insert_pos, num_rows_delete_pos,
    num_rows_insert_newline_pos, num_rows_delete_row_pos,
    fun d h => by simpa [Document.trim_trailing_spaces, Document.num_rows] using h,
    delete_row_single⟩
  simp [Document.openDoc, hf, Document.new_empty, Document.num_rows]

/-- Witness for C1's amended theorem at concrete inputs. -/
theorem c1_witness :
    1 ≤ ((Document.new [Row.ofString "a"] "t").delete 0 0 0).num_rows ∧
    ((Document.new [Row.ofString "a"] "t").delete_row 1).num_rows = 1 := by
  refine ⟨?_, ?_⟩
  · exact c1_theorem.2.2.2.2.1 (Document.new [Row.ofString "a"] "t") 0 0 0 (by decide)
  · exact (c1_theorem.2.2.2.2.2.2.2.2 (Document.new [Row.ofString "a"] "t") 1
      (by decide)).1

/-- C2: with `y` at or beyond the current row bounds, the structural edit
operations are total (no panic: they are plain functions) and each call is
either the identity or the documented structural fallback — `insert`
appends a fresh row holding just the inserted character, and `delete_row`
at most clears the text of a sole remaining row; the at-least-one-row
invariant is preserved throughout. -/
theorem c2_theorem (d : Document) (c : Char) (x fx y : Nat) (h : d.num_rows ≤ y) :
    (d.insert c x y).rows = d.rows ++ [Row.ofString (String.singleton c)] ∧
    d.delete x fx y = d ∧
    d.insert_newline x y = d ∧
    ((d.delete_row y = d) ∨
      (d.num_rows = 1 ∧ y = 1 ∧ (d.delete_row y).rows = [Row.ofString ""])) ∧
    (1 ≤ d.num_rows →
      1 ≤ (d.insert c x y).num_rows ∧ 1 ≤ (d.delete x fx y).num_rows ∧
      1 ≤ (d.insert_newline x y).num_rows ∧ 1 ≤ (d.delete_row y).num_rows) := by
  have hlen : d.rows.length ≤ y := by simpa [Document.num_rows] using h
  refine ⟨?_, ?_, ?_, ?_, fun h1 => ⟨num_rows_insert_pos d c x y h1,
    num_rows_delete_pos d x fx y h1, num_rows_insert_newline_pos d x y h1,
    num_rows_delete_row_pos d y h1⟩⟩
  · unfold Document.insert
    rw [if_pos h]
    simp [Row.defaultRow, Row.insert, Row.len, Row.ofString, String.singleton,
      String.push]
  · unfold Document.delete
    rw [if_pos h]
  · unfold Document.insert_newline
    split
    · rfl
    · rename_i hy
      have : d.rows.get? y = none := List.get?_eq_none.mpr hlen
      simp only [this]
  · unfold Document.delete_row
    split
    · exact Or.inl rfl
    · rename_i hy
      have hyy : y = d.num_rows := by simp only [Document.num_rows] at *; omega
      split
      · rename_i h1
        rcases List.length_eq_one.mp (by simpa [Document.num_rows] using h1) with ⟨r, hr⟩
        refine Or.inr ⟨h1, by omega, ?_⟩
        simp [hr, updateAt, Row.ofString]
      · have hnone : d.rows.get? y = none := List.get?_eq_none.mpr hlen
        left
        split
        · rename_i hs
          rw [hnone] at hs
          simp at hs
        · rfl

/-- Witness for C2 at a one-row document and `y = 1`. -/
theorem c2_witness :
    ((Document.new [Row.ofString "ab"] "t").insert 'z' 0 1).rows
      = [Row.ofString "ab", Row.ofString "z"] ∧
    (Document.new [Row.ofString "ab"] "t").delete 0 0 1
      = Document.new [Row.ofString "ab"] "t" ∧
    ((Document.new [Row.ofString "ab"] "t").delete_row 1).rows = [Row.ofString ""] := by
  have h := c2_theorem (Document.new [Row.ofString "ab"] "t") 'z' 0 0 1 (by decide)
  refine ⟨by simpa using h.1, h.2.1, ?_⟩
  rcases h.2.2.2.1 with h' | h'
  · exact absurd (congrArg (fun d => d.rows.map Row.string) h') (by decide)
  · exact h'.2.2

/-! ## C3 / C10: opening with and without a swap file -/

/-- C3: when a regular file exists at the path and its companion swap file
also exists, `open` loads the swap file's lines, binding the original
path. -/
theorem c3_theorem (fs : String → Option String) (f c s : String)
    (h1 : fs f = some c) (h2 : fs (Document.swap_filename f) = some s) :
    (Document.openDoc fs f).rows = (rustLines s).map Row.ofString ∧
    (Document.openDoc fs f).filename = f := by
  unfold Document.openDoc
  rw [h1, h2]
  exact ⟨rfl, rfl⟩

/-- Witness for C3: both `"f.txt"` and `".f.txt.swp"` exist; the two rows of
the swap file are loaded, not the real file's row. -/
theorem c3_witness :
    (Document.openDoc
        (fun q => if q = "f.txt" then some "real"
          else if q = ".f.txt.swp" then some "swap one\nswap two" else none)
        "f.txt").rows
      = [Row.ofString "swap one", Row.ofString "swap two"] := by
  have h := c3_theorem
    (fun q => if q = "f.txt" then some "real"
      else if q = ".f.txt.swp" then some "swap one\nswap two" else none)
    "f.txt" "real" "swap one\nswap two" (by decide) (by decide)
  exact h.1.trans (by decide)

/-- C10: when no regular file exists at the path, `open` returns a fresh
single-empty-row document bound to the path, even when the companion swap
file exists — the swap content is never loaded. -/
theorem c10_theorem (fs : String → Option String) (f s : String)
    (h1 : fs f = none) (_h2 : fs (Document.swap_filename f) = some s) :
    Document.openDoc fs f = Document.new_empty f ∧
    (Document.openDoc fs f).rows = [Row.ofString ""] ∧
    (Document.openDoc fs f).filename = f := by
  unfold Document.openDoc
  rw [h1]
  exact ⟨rfl, rfl, rfl⟩

/-- Witness for C10: `"g.txt"` does not exist but `".g.txt.swp"` does; the
swap content is ignored. -/
theorem c10_witness :
    (Document.openDoc (fun q => if q = ".g.txt.swp" then some "leftover" else none)
        "g.txt").rows = [Row.ofString ""] := by
  exact (c10_theorem (fun q => if q = ".g.txt.swp" then some "leftover" else none)
    "g.txt" "leftover" (by decide) (by decide)).2.1

/-! ## Helper lemmas: line splitting and serialization (for C4) -/

theorem string_data_append (a b : String) : (a ++ b).data = a.data ++ b.data := by
  cases a; cases b; rfl

theorem splitOnNl_ne_nil : ∀ l : List Char, splitOnNl l ≠ []
  | [] => by simp [splitOnNl]
  | c :: rest => by
    cases hpt : splitOnNl rest with
    | nil => exact absurd hpt (splitOnNl_ne_nil rest)
    | cons p t => simp only [splitOnNl, hpt]; split <;> simp

theorem splitOnNl_cons_nl (rest : List Char) :
    splitOnNl ('\n' :: rest) = [] :: splitOnNl rest := by
  cases hpt : splitOnNl rest with
  | nil => exact absurd hpt (splitOnNl_ne_nil rest)
  | cons p t => simp [splitOnNl, hpt]

theorem splitOnNl_append : ∀ (r rest : List Char), '\n' ∉ r →
    splitOnNl (r ++ '\n' :: rest) = r :: splitOnNl rest
  | [], rest, _ => by simpa using splitOnNl_cons_nl rest
  | c :: r, rest, h => by
    have hc : c ≠ '\n' := fun hh => h (by simp [hh])
    have ih := splitOnNl_append r rest (fun hr => h (List.mem_cons_of_mem _ hr))
    show splitOnNl (c :: (r ++ '\n' :: rest)) = (c :: r) :: splitOnNl rest
    rw [splitOnNl, ih]
    simp [hc]

theorem linesCore_nil : linesCore [] = [] := rfl

theorem linesCore_append (r rest : List Char) (h : '\n' ∉ r) :
    linesCore (r ++ '\n' :: rest) = chompCR r :: linesCore rest := by
  unfold linesCore
  rw [splitOnNl_append r rest h]
  cases hpt : splitOnNl rest with
  | nil => exact absurd hpt (splitOnNl_ne_nil rest)
  | cons p t =>
    simp only [List.getLast?_cons_cons]
    by_cases hl : (p :: t).getLast? = some ([] : List Char)
    · simp [hl, List.dropLast_cons₂]
    · simp [hl]

theorem rustLines_serializeRows : ∀ rows : List Row,
    (∀ r ∈ rows, '\n' ∉ r.string.data ∧ r.string.data.getLast? ≠ some '\r') →
    rustLines (serializeRows rows) = rows.map Row.string
  | [], _ => rfl
  | r :: rows, h => by
    have hr := h r (List.mem_cons_self r rows)
    have hrest : ∀ x ∈ rows, '\n' ∉ x.string.data ∧ x.string.data.getLast? ≠ some '\r' :=
      fun x hx => h x (List.mem_cons_of_mem r hx)
    have hdata : (serializeRows (r :: rows)).data
        = r.string.data ++ '\n' :: (serializeRows rows).data := by
      show (r.string ++ "\n" ++ serializeRows rows).data = _
      rw [string_data_append, string_data_append]
      simp
    unfold rustLines
    rw [hdata, linesCore_append _ _ hr.1]
    have hch : chompCR r.string.data = r.string.data := by
      unfold chompCR
      rw [if_neg hr.2]
    rw [List.map_cons, hch]
    have heta : (⟨r.string.data⟩ : String) = r.string := rfl
    rw [heta]
    exact congrArg (r.string :: ·) (rustLines_serializeRows rows hrest)

theorem length_mk (l : List Char) : (String.mk l).length = l.length := rfl

theorem length_swap_filename (f : String) :
    (Document.swap_filename f).length = f.length + 5 := by
  unfold Document.swap_filename
  have hsplit := congrArg List.length
    (List.takeWhile_append_dropWhile (p := fun c => decide (c ≠ '/')) (l := f.data.reverse))
  simp only [List.length_append, List.length_reverse] at hsplit
  simp only [String.length_append, length_mk, List.length_reverse]
  have e1 : ("." : String).length = 1 := rfl
  have e2 : (".swp" : String).length = 4 := rfl
  have e3 : f.length = f.data.length := rfl
  rw [e1, e2, e3]
  omega

theorem swap_filename_ne (f : String) : Document.swap_filename f ≠ f := by
  intro h
  have := congrArg String.length h
  rw [length_swap_filename] at this
  omega

/-! ## C4: save / open round-trip -/

/-- C4: the claim quantifies over every Document with a bound filename, but
a row whose text itself contains a newline is serialized as two lines:
re-opening splits it, so the round-trip does not restore the row. -/
theorem c4_counterexample :
    (Document.new [Row.ofString "a\nb"] "f.txt").filename ≠ "" ∧
    ((Document.openDoc ((Document.new [Row.ofString "a\nb"] "f.txt").save fsEmpty)
        "f.txt").rows.map Row.string)
      ≠ (Document.new [Row.ofString "a\nb"] "f.txt").rows.map Row.string := by
  constructor
  · decide
  · decide

/-- C4 (amended): for a Document with a non-empty bound filename whose row
texts contain no `'\n'` and do not end in `'\r'` (every row `open` itself
can produce satisfies this), saving and re-opening the same path yields
rows with identical text content in the same order, bound to the same
path. -/
theorem c4_theorem (d : Document) (fs : String → Option String)
    (hname : d.filename ≠ "")
    (hclean : ∀ r ∈ d.rows, '\n' ∉ r.string.data ∧ r.string.data.getLast? ≠ some '\r') :
    (Document.openDoc (d.save fs) d.filename).rows.map Row.string
      = d.rows.map Row.string ∧
    (Document.openDoc (d.save fs) d.filename).filename = d.filename := by
  have hswap := swap_filename_ne d.filename
  have hfile : (d.save fs) d.filename = some (serializeRows d.rows) := by
    unfold Document.save
    rw [if_neg hname]
    show (if d.filename = Document.swap_filename d.filename then none
      else if d.filename = d.filename then some (serializeRows d.rows)
      else fs d.filename) = some (serializeRows d.rows)
    rw [if_neg (fun hh => hswap hh.symm), if_pos rfl]
  have hsw : (d.save fs) (Document.swap_filename d.filename) = none := by
    unfold Document.save
    rw [if_neg hname]
    show (if Document.swap_filename d.filename = Document.swap_filename d.filename then none
      else if Document.swap_filename d.filename = d.filename then some (serializeRows d.rows)
      else fs (Document.swap_filename d.filename)) = none
    rw [if_pos rfl]
  unfold Document.openDoc
  rw [hfile, hsw]
  refine ⟨?_, rfl⟩
  show ((rustLines (serializeRows d.rows)).map Row.ofString).map Row.string = _
  rw [rustLines_serializeRows d.rows hclean, List.map_map]
  simp [Row.ofString]

/-- Witness for C4's amended theorem: one clean row round-trips. -/
theorem c4_witness :
    (Document.openDoc ((Document.new [Row.ofString "hello"] "out.txt").save fsEmpty)
        "out.txt").rows.map Row.string = ["hello"] := by
  have h := c4_theorem (Document.new [Row.ofString "hello"] "out.txt") fsEmpty
    (by decide) (by decide)
  exact h.1.trans (by decide)

/-! ## Helper lemmas: viewport moves -/

theorem move_x_preserves (e : Editor) (x : Nat) :
    (e.move_cursor_to_position_x x).document = e.document ∧
    (e.move_cursor_to_position_x x).mode = e.mode ∧
    (e.move_cursor_to_position_x x).command_buffer = e.command_buffer ∧
    (e.move_cursor_to_position_x x).normal_command_buffer = e.normal_command_buffer ∧
    (e.move_cursor_to_position_x x).search_matches = e.search_matches ∧
    (e.move_cursor_to_position_x x).current_search_match_index
      = e.current_search_match_index ∧
    (e.move_cursor_to_position_x x).term_width = e.term_width ∧
    (e.move_cursor_to_position_x x).term_height = e.term_height ∧
    (e.move_cursor_to_position_x x).cursor_position.y = e.cursor_position.y ∧
    (e.move_cursor_to_position_x x).offset.rows = e.offset.rows := by
  unfold Editor.move_cursor_to_position_x
  dsimp only
  split_ifs <;> simp

theorem move_y_preserves (e : Editor) (y : Nat) :
    (e.move_cursor_to_position_y y).document = e.document ∧
    (e.move_cursor_to_position_y y).mode = e.mode ∧
    (e.move_cursor_to_position_y y).command_buffer = e.command_buffer ∧
    (e.move_cursor_to_position_y y).normal_command_buffer = e.normal_command_buffer ∧
    (e.move_cursor_to_position_y y).search_matches = e.search_matches ∧
    (e.move_cursor_to_position_y y).current_search_match_index
      = e.current_search_match_index ∧
    (e.move_cursor_to_position_y y).term_width = e.term_width ∧
    (e.move_cursor_to_position_y y).term_height = e.term_height ∧
    (e.move_cursor_to_position_y y).cursor_position.x = e.cursor_position.x ∧
    (e.move_cursor_to_position_y y).offset.columns = e.offset.columns := by
  unfold Editor.move_cursor_to_position_y
  dsimp only
  split_ifs <;> simp

/-- The absolute column landed on by a direct column jump, from a state with
zero horizontal offset, on a positive-width terminal. -/
theorem current_x_position_move_x (e : Editor) (x : Nat)
    (hox : e.offset.columns = 0) (htw : 1 ≤ e.term_width) :
    (e.move_cursor_to_position_x x).current_x_position = x := by
  unfold Editor.move_cursor_to_position_x Editor.current_x_position
  dsimp only
  split_ifs with h
  · dsimp only
    omega
  · dsimp only
    omega

/-- A direct line jump lands the cursor's absolute row exactly on the
(in-range) target line. -/
theorem current_row_index_move_y (e : Editor) (y : Nat)
    (h : y ≤ e.document.last_line_number) :
    (e.move_cursor_to_position_y y).current_row_index = y := by
  unfold Editor.move_cursor_to_position_y Editor.current_row_index
    Editor.middle_of_screen_line_number
  dsimp only
  rw [min_eq_left h]
  split_ifs <;> (dsimp only; omega)

/-! ## C9: the centering rule of direct line jumps -/

/-- C9: a direct jump to an (in-range) target line recomputes the vertical
offset and screen row exactly as the claim's centering rule describes:
offset 0 before the midpoint, bottom view past `document length − midpoint`,
offset unchanged (screen row `target − offset`) inside the current window,
otherwise recentred on the midpoint. -/
theorem c9_theorem (e : Editor) (y : Nat) (h : y ≤ e.document.last_line_number) :
    ((e.move_cursor_to_position_y y).offset.rows,
      (e.move_cursor_to_position_y y).cursor_position.y)
      = centering_rule_spec e.document.last_line_number e.term_height
          e.middle_of_screen_line_number e.offset.rows y := by
  unfold Editor.move_cursor_to_position_y centering_rule_spec
    Editor.middle_of_screen_line_number
  dsimp only
  rw [min_eq_left h]
  split_ifs <;> rfl

/-- Witness for C9: jumping to line index 50 of a 100-line document on a
24-row screen recentres: offset 38, screen row 12. -/
theorem c9_witness :
    (((sampleEditor (List.replicate 100 "x") 0 0 0 0 Mode.Normal).move_cursor_to_position_y
          50).offset.rows,
      ((sampleEditor (List.replicate 100 "x") 0 0 0 0 Mode.Normal).move_cursor_to_position_y
          50).cursor_position.y)
      = (38, 12) := by
  have h := c9_theorem (sampleEditor (List.replicate 100 "x") 0 0 0 0 Mode.Normal) 50
    (by decide)
  exact h.trans (by decide)

/-! ## Helper lemmas: cursor jumps only touch cursor and offset -/

theorem goto_x_y_shape (e : Editor) (x y : Nat) :
    ∃ p o, e.goto_x_y x y = { e with cursor_position := p, offset := o } := by
  unfold Editor.goto_x_y Editor.move_cursor_to_position_y Editor.move_cursor_to_position_x
  dsimp only
  split_ifs <;> exact ⟨_, _, rfl⟩

theorem goto_line_shape (e : Editor) (ln x : Nat) :
    ∃ p o, e.goto_line ln x = { e with cursor_position := p, offset := o } := by
  unfold Editor.goto_line
  exact goto_x_y_shape e x (ln - 1)

theorem move_cursor_shape (e : Editor) (d : Direction) (t : Nat) :
    ∃ p o, e.move_cursor d t = { e with cursor_position := p, offset := o } := by
  unfold Editor.move_cursor
  dsimp only
  split_ifs <;> exact ⟨_, _, rfl⟩

theorem current_row_index_goto_x_y (e : Editor) (x y : Nat)
    (h : y ≤ e.document.last_line_number) :
    (e.goto_x_y x y).current_row_index = y := by
  unfold Editor.goto_x_y
  exact current_row_index_move_y _ y (by rw [(move_x_preserves e x).1]; exact h)

theorem current_x_position_goto_x_y (e : Editor) (x y : Nat)
    (hox : e.offset.columns = 0) (htw : 1 ≤ e.term_width) :
    (e.goto_x_y x y).current_x_position = x := by
  unfold Editor.goto_x_y Editor.current_x_position
  have hy := move_y_preserves (e.move_cursor_to_position_x x) y
  rw [hy.2.2.2.2.2.2.2.2.1, hy.2.2.2.2.2.2.2.2.2]
  simpa [Editor.current_x_position] using current_x_position_move_x e x hox htw

theorem current_row_index_goto_line (e : Editor) (ln x : Nat)
    (h : ln - 1 ≤ e.document.last_line_number) :
    (e.goto_line ln x).current_row_index = ln - 1 :=
  current_row_index_goto_x_y e x (ln - 1) h

theorem current_x_position_goto_line (e : Editor) (ln x : Nat)
    (hox : e.offset.columns = 0) (htw : 1 ≤ e.term_width) :
    (e.goto_line ln x).current_x_position = x :=
  current_x_position_goto_x_y e x (ln - 1) hox htw

/-! ## Helper lemmas: the search-match ring -/

theorem goto_next_shape (e : Editor) :
    ∃ p o i m, e.goto_next_search_match
      = { e with
            cursor_position := p
            offset := o
            current_search_match_index := i
            message := m } := by
  unfold Editor.goto_next_search_match
  split
  · exact ⟨e.cursor_position, e.offset, e.current_search_match_index, e.message, rfl⟩
  · dsimp only [Editor.display_message]
    split
    · rename_i m hm
      obtain ⟨p, o, hshape⟩ := goto_line_shape _ m.1.y m.1.x
      exact ⟨p, o, _, _, hshape⟩
    · exact ⟨e.cursor_position, e.offset, _, _, rfl⟩

theorem goto_previous_shape (e : Editor) :
    ∃ p o i m, e.goto_previous_search_match
      = { e with
            cursor_position := p
            offset := o
            current_search_match_index := i
            message := m } := by
  unfold Editor.goto_previous_search_match
  split
  · exact ⟨e.cursor_position, e.offset, e.current_search_match_index, e.message, rfl⟩
  · dsimp only [Editor.display_message]
    split
    · rename_i m hm
      obtain ⟨p, o, hshape⟩ := goto_line_shape _ m.1.y m.1.x
      exact ⟨p, o, _, _, hshape⟩
    · exact ⟨e.cursor_position, e.offset, _, _, rfl⟩

theorem goto_next_index (e : Editor) (h : e.search_matches ≠ []) :
    e.goto_next_search_match.current_search_match_index
      = nextRingIdx e.search_matches.length e.current_search_match_index := by
  unfold Editor.goto_next_search_match nextRingIdx
  rw [if_neg (by simp [h])]
  dsimp only [Editor.display_message]
  split
  · rename_i m hm
    obtain ⟨p, o, hshape⟩ := goto_line_shape _ m.1.y m.1.x
    rw [hshape]
  · rfl

theorem goto_previous_index (e : Editor) (h : e.search_matches ≠ []) :
    e.goto_previous_search_match.current_search_match_index
      = (if e.current_search_match_index = 0 then e.search_matches.length - 1
          else e.current_search_match_index - 1) := by
  unfold Editor.goto_previous_search_match
  rw [if_neg (by simp [h])]
  dsimp only [Editor.display_message]
  split
  · rename_i m hm
    obtain ⟨p, o, hshape⟩ := goto_line_shape _ m.1.y m.1.x
    rw [hshape]
  · rfl

/-- Where an advance through a non-empty ring puts the cursor: on the start
position of the match it lands on. -/
theorem goto_next_lands (e : Editor) (m : Position × Position)
    (h : e.search_matches ≠ [])
    (hm : e.search_matches.get?
        (nextRingIdx e.search_matches.length e.current_search_match_index) = some m)
    (hy : m.1.y - 1 ≤ e.document.last_line_number) :
    e.goto_next_search_match.current_row_index = m.1.y - 1 := by
  unfold Editor.goto_next_search_match
  rw [if_neg (by simp [h])]
  dsimp only [Editor.display_message]
  rw [show (if e.current_search_match_index = e.search_matches.length - 1 then 0
      else e.current_search_match_index + 1)
      = nextRingIdx e.search_matches.length e.current_search_match_index from rfl]
  rw [hm]
  exact current_row_index_goto_line _ m.1.y m.1.x hy

/-- The match list a fresh search stores. -/
theorem search_matches_after (e : Editor) (p : String) :
    (e.process_search_command p).search_matches
      = (enumerate 0 e.document.rows).filterMap (fun q => Editor.rowSearchMatch p q.1 q.2) := by
  unfold Editor.process_search_command
  dsimp only [Editor.reset_search, Editor.display_message]
  obtain ⟨pp, oo, ii, mm, hshape⟩ := goto_next_shape
    { e with
      search_matches :=
        (enumerate 0 e.document.rows).filterMap (fun q => Editor.rowSearchMatch p q.1 q.2),
      current_search_match_index :=
        ((enumerate 0 e.document.rows).filterMap
          (fun q => Editor.rowSearchMatch p q.1 q.2)).length - 1,
      message := toString ((enumerate 0 e.document.rows).filterMap
          (fun q => Editor.rowSearchMatch p q.1 q.2)).length ++ " matches" }
  rw [hshape]

/-- Every recorded match decomposes as the claim C5 describes. -/
theorem mem_matches_spec (e : Editor) (p : String) (m : Position × Position)
    (hm : m ∈ (e.process_search_command p).search_matches) :
    ∃ i row, e.document.rows.get? i = some row ∧ row.find p = some m.1.x ∧
      m.1.y = i + 1 ∧ m.2.x = m.1.x + p.length + 1 ∧ m.2.y = i + 1 := by
  rw [search_matches_after] at hm
  rcases List.mem_filterMap.mp hm with ⟨⟨i, row⟩, hmem, hf⟩
  rcases (mem_enumerate e.document.rows 0 (i, row)).mp hmem with ⟨j, hj, hij⟩
  dsimp only at hj hij
  unfold Editor.rowSearchMatch Row.containsPat at hf
  cases hfind : row.find p with
  | none => rw [hfind] at hf; simp at hf
  | some k =>
    rw [hfind] at hf
    simp only [Option.isSome_some, if_true] at hf
    cases hf
    have hi : i = j := by omega
    subst hi
    exact ⟨i, row, hj, by simpa using hfind, rfl,
      by show k + 1 + p.length = k + p.length + 1; omega, rfl⟩

/-! ## C5: positions of recorded search matches -/

/-- C5: after submitting a search for `p`, every recorded match pair starts
at the first occurrence index of `p` in its row with the 1-based line
number, and ends at `start.x + length p + 1` on the same line (the source's
off-by-one end position, preserved exactly). -/
theorem c5_theorem (e : Editor) (p : String) (m : Position × Position)
    (hm : m ∈ (e.process_search_command p).search_matches) :
    ∃ i row, e.document.rows.get? i = some row ∧ row.find p = some m.1.x ∧
      m.1.y = i + 1 ∧ m.2.x = m.1.x + p.length + 1 ∧ m.2.y = i + 1 :=
  mem_matches_spec e p m hm

/-- Witness for C5: searching `"ell"` in the single row `"hello"` records
the pair `((1, 1), (5, 1))`. -/
theorem c5_witness :
    ((⟨1, 1⟩, ⟨5, 1⟩) : Position × Position)
        ∈ ((sampleEditor ["hello"] 0 0 0 0 Mode.Normal).process_search_command
            "ell").search_matches ∧
    ∃ i row,
      (sampleEditor ["hello"] 0 0 0 0 Mode.Normal).document.rows.get? i = some row ∧
        row.find "ell" = some 1 ∧ (1 : Nat) = i + 1 ∧
        (5 : Nat) = 1 + ("ell" : String).length + 1 ∧ (1 : Nat) = i + 1 := by
  have hmem : ((⟨1, 1⟩, ⟨5, 1⟩) : Position × Position)
      ∈ ((sampleEditor ["hello"] 0 0 0 0 Mode.Normal).process_search_command
          "ell").search_matches := by decide
  refine ⟨hmem, ?_⟩
  simpa using c5_theorem (sampleEditor ["hello"] 0 0 0 0 Mode.Normal) "ell" _ hmem

/-! ## Helper lemmas: ring-index arithmetic and iterated advances -/

theorem nextRingIdx_iterate_lt (n : Nat) : ∀ k, k < n → (nextRingIdx n)^[k] 0 = k
  | 0, _ => rfl
  | k + 1, h => by
    rw [Function.iterate_succ_apply', nextRingIdx_iterate_lt n k (by omega)]
    unfold nextRingIdx
    rw [if_neg (by omega)]

theorem nextRingIdx_iterate_full (n : Nat) (h : 1 ≤ n) : (nextRingIdx n)^[n] 0 = 0 := by
  obtain ⟨m, rfl⟩ : ∃ m, n = m + 1 := ⟨n - 1, by omega⟩
  rw [Function.iterate_succ_apply', nextRingIdx_iterate_lt (m + 1) m (by omega)]
  unfold nextRingIdx
  rw [if_pos (by omega)]

theorem iterate_goto_next (e : Editor) (h : e.search_matches ≠ []) : ∀ k : Nat,
    (Editor.goto_next_search_match^[k] e).search_matches = e.search_matches ∧
    (Editor.goto_next_search_match^[k] e).document = e.document ∧
    (Editor.goto_next_search_match^[k] e).current_search_match_index
      = (nextRingIdx e.search_matches.length)^[k] e.current_search_match_index
  | 0 => ⟨rfl, rfl, rfl⟩
  | k + 1 => by
    obtain ⟨h1, h2, h3⟩ := iterate_goto_next e h k
    rw [Function.iterate_succ_apply' Editor.goto_next_search_match k e]
    obtain ⟨p, o, i, mmsg, hshape⟩ := goto_next_shape (Editor.goto_next_search_match^[k] e)
    have hidx := goto_next_index (Editor.goto_next_search_match^[k] e)
      (by rw [h1]; exact h)
    refine ⟨by rw [hshape]; exact h1, by rw [hshape]; exact h2, ?_⟩
    rw [hidx, h1, h3]
    exact (Function.iterate_succ_apply' (nextRingIdx e.search_matches.length) k
      e.current_search_match_index).symm

/-- A fresh search with at least one hit leaves the current index at 0. -/
theorem index_after_search_zero (e : Editor) (p : String)
    (hne : (e.process_search_command p).search_matches ≠ []) :
    (e.process_search_command p).current_search_match_index = 0 := by
  have hm := search_matches_after e p
  rw [hm] at hne
  unfold Editor.process_search_command
  dsimp only [Editor.reset_search, Editor.display_message]
  rw [goto_next_index _ hne]
  unfold nextRingIdx
  rw [if_pos rfl]

/-- A fresh search with at least one hit puts the cursor's absolute row on
the first match's line. -/
theorem search_lands_on_first (e : Editor) (p : String)
    (hne : (e.process_search_command p).search_matches ≠ [])
    (m0 : Position × Position)
    (hm0 : (e.process_search_command p).search_matches.get? 0 = some m0) :
    (e.process_search_command p).current_row_index = m0.1.y - 1 := by
  have hmem : m0 ∈ (e.process_search_command p).search_matches := List.get?_mem hm0
  obtain ⟨i, row, hrow, _, hy1, _, _⟩ := mem_matches_spec e p m0 hmem
  have hi : i < e.document.rows.length := (List.get?_eq_some.mp hrow).1
  have hyb : m0.1.y - 1 ≤ e.document.last_line_number := by
    unfold Document.last_line_number Document.num_rows
    omega
  have hmafter := search_matches_after e p
  rw [hmafter] at hm0 hne
  unfold Editor.process_search_command
  dsimp only [Editor.reset_search, Editor.display_message]
  refine goto_next_lands _ m0 hne ?_ hyb
  simpa [nextRingIdx] using hm0

/-! ## C6: ring navigation -/

/-- C6: a fresh search with `n ≥ 1` matches sets the current index to the
last match and immediately advances, landing on the first match in document
order (index 0, cursor on its line); `n` further advances return to the
first match; an advance from the last match wraps to the first and a
retreat from the first wraps to the last. -/
theorem c6_theorem (e : Editor) (p : String)
    (h : 1 ≤ (e.process_search_command p).search_matches.length) :
    (e.process_search_command p).current_search_match_index = 0 ∧
    (∀ m0, (e.process_search_command p).search_matches.get? 0 = some m0 →
      (e.process_search_command p).current_row_index = m0.1.y - 1) ∧
    (Editor.goto_next_search_match^[(e.process_search_command p).search_matches.length]
        (e.process_search_command p)).current_search_match_index = 0 ∧
    (∀ e2 : Editor, e2.search_matches ≠ [] →
      e2.current_search_match_index = e2.search_matches.length - 1 →
      e2.goto_next_search_match.current_search_match_index = 0) ∧
    (∀ e2 : Editor, e2.search_matches ≠ [] → e2.current_search_match_index = 0 →
      e2.goto_previous_search_match.current_search_match_index
        = e2.search_matches.length - 1) := by
  have hne : (e.process_search_command p).search_matches ≠ [] := by
    intro hh
    rw [hh] at h
    simp at h
  refine ⟨index_after_search_zero e p hne,
    fun m0 hm0 => search_lands_on_first e p hne m0 hm0, ?_, ?_, ?_⟩
  · obtain ⟨h1, h2, h3⟩ := iterate_goto_next (e.process_search_command p) hne
      (e.process_search_command p).search_matches.length
    rw [h3, index_after_search_zero e p hne]
    exact nextRingIdx_iterate_full _ h
  · intro e2 h2ne hidx
    rw [goto_next_index e2 h2ne, hidx]
    unfold nextRingIdx
    rw [if_pos rfl]
  · intro e2 h2ne hidx
    rw [goto_previous_index e2 h2ne, if_pos hidx]

/-- Witness for C6: two matches of `"ab"`; the fresh search lands on index
0, and two advances return to index 0. -/
theorem c6_witness :
    ((sampleEditor ["ab", "zz", "ab"] 0 0 0 0 Mode.Normal).process_search_command
        "ab").current_search_match_index = 0 ∧
    (Editor.goto_next_search_match^[2]
        ((sampleEditor ["ab", "zz", "ab"] 0 0 0 0 Mode.Normal).process_search_command
          "ab")).current_search_match_index = 0 := by
  have h := c6_theorem (sampleEditor ["ab", "zz", "ab"] 0 0 0 0 Mode.Normal) "ab"
    (by decide)
  have hlen : ((sampleEditor ["ab", "zz", "ab"] 0 0 0 0 Mode.Normal).process_search_command
      "ab").search_matches.length = 2 := by decide
  refine ⟨h.1, ?_⟩
  have h3 := h.2.2.1
  rw [hlen] at h3
  exact h3

/-! ## Helper lemmas: repeated Down motion (for C7) -/

theorem down_step_eq (e : Editor) (x y ox oy : Nat) :
    Editor.move_cursor_step e Direction.Down (x, y, ox, oy)
      = if y + oy < e.document.last_line_number - 1 then
          (if y < e.term_height - 1 then (x, y + 1, ox, oy) else (x, y, ox, oy + 1))
        else (x, y, ox, oy) := rfl

/-- Iterating the Down step `k` times advances the absolute row `y + oy` by
`k`, clamped at the last document line. -/
theorem down_step_abs (e : Editor) : ∀ (k x y ox oy : Nat),
    y + oy ≤ e.document.last_line_number - 1 →
    ((Editor.move_cursor_step e Direction.Down)^[k] (x, y, ox, oy)).2.1
        + ((Editor.move_cursor_step e Direction.Down)^[k] (x, y, ox, oy)).2.2.2
      = min (y + oy + k) (e.document.last_line_number - 1)
  | 0, x, y, ox, oy, h => by
    simp only [Function.iterate_zero, id]
    omega
  | k + 1, x, y, ox, oy, h => by
    rw [Function.iterate_succ_apply, down_step_eq]
    by_cases h1 : y + oy < e.document.last_line_number - 1
    · rw [if_pos h1]
      by_cases h2 : y < e.term_height - 1
      · rw [if_pos h2, down_step_abs e k x (y + 1) ox oy (by omega)]
        omega
      · rw [if_neg h2, down_step_abs e k x y ox (oy + 1) (by omega)]
        omega
    · rw [if_neg h1, down_step_abs e k x y ox oy h]
      omega

/-- Moving down `n` times from a valid cursor row advances the absolute row
by `n`, clamped at the last document line. -/
theorem current_row_index_move_cursor_down (e : Editor) (n : Nat)
    (h : e.current_row_index + 1 ≤ e.document.last_line_number) :
    (e.move_cursor Direction.Down n).current_row_index
      = min (e.current_row_index + n) (e.document.last_line_number - 1) := by
  have habs := down_step_abs e n e.cursor_position.x e.cursor_position.y
    e.offset.columns e.offset.rows
    (by unfold Editor.current_row_index at h; omega)
  unfold Editor.current_row_index at h ⊢
  unfold Editor.move_cursor
  dsimp only
  split_ifs <;> (dsimp only; omega)

/-! ## Helper lemmas: Normal-mode keystrokes (for C7) -/

theorem keystroke_digit (e : Editor) (c : Char)
    (hcb : e.command_buffer = "") (hm : e.mode = Mode.Normal)
    (hc : c = '1' ∨ c = '2' ∨ c = '3' ∨ c = '4' ∨ c = '5' ∨ c = '6' ∨ c = '7'
      ∨ c = '8' ∨ c = '9') :
    e.process_keystroke (Key.Char c)
      = { e with normal_command_buffer := e.normal_command_buffer ++ [c.toString] } := by
  have hrc : e.is_receiving_command = false := by
    unfold Editor.is_receiving_command
    rw [hcb]
    decide
  unfold Editor.process_keystroke
  rw [hrc]
  simp only [Bool.false_eq_true, if_false]
  conv_lhs => rw [hm]
  dsimp only
  unfold Editor.process_normal_command
  rw [if_neg (by simp)]
  rcases hc with rfl | rfl | rfl | rfl | rfl | rfl | rfl | rfl | rfl <;> rfl

theorem keystroke_j_12 (e : Editor)
    (hcb : e.command_buffer = "") (hm : e.mode = Mode.Normal)
    (hb : e.normal_command_buffer = ['1'.toString, '2'.toString]) :
    e.process_keystroke (Key.Char 'j')
      = ({ e with normal_command_buffer := [] }).move_cursor Direction.Down 12 := by
  have hrc : e.is_receiving_command = false := by
    unfold Editor.is_receiving_command
    rw [hcb]
    decide
  unfold Editor.process_keystroke
  rw [hrc]
  simp only [Bool.false_eq_true, if_false]
  conv_lhs => rw [hm]
  dsimp only
  unfold Editor.process_normal_command
  rw [if_neg (by simp)]
  dsimp only
  unfold Editor.pop_normal_command_repetitions
  rw [hb]
  show Editor.process_normal_command_n_times
      { e with normal_command_buffer := [] } 'j'
      ((parseUsize (String.join ['1'.toString, '2'.toString])).getD 0) = _
  rw [show (parseUsize (String.join ['1'.toString, '2'.toString])).getD 0 = 12 from by
    decide]
  rfl

/-! ## C7: repetition counts -/

/-- C7: in Normal mode with an empty repetition buffer, `1`, `2`, `j` moves
the cursor's absolute document row down by exactly 12 lines, clamped at the
last document line, and leaves the repetition buffer empty. -/
theorem c7_theorem (e : Editor)
    (hcb : e.command_buffer = "") (hm : e.mode = Mode.Normal)
    (hb : e.normal_command_buffer = [])
    (hrow : e.current_row_index < e.document.num_rows) :
    (((e.process_keystroke (Key.Char '1')).process_keystroke
        (Key.Char '2')).process_keystroke (Key.Char 'j')).current_row_index
      = min (e.current_row_index + 12) (e.document.last_line_number - 1) ∧
    (((e.process_keystroke (Key.Char '1')).process_keystroke
        (Key.Char '2')).process_keystroke (Key.Char 'j')).normal_command_buffer = [] := by
  rw [keystroke_digit e '1' hcb hm (by simp), hb]
  rw [keystroke_digit { e with normal_command_buffer := [] ++ ['1'.toString] } '2'
    hcb hm (by simp)]
  simp only [List.nil_append, List.cons_append]
  rw [keystroke_j_12 { e with normal_command_buffer := ['1'.toString, '2'.toString] }
    hcb hm rfl]
  constructor
  · exact current_row_index_move_cursor_down _ 12 (by
      unfold Editor.current_row_index Document.num_rows at hrow
      unfold Editor.current_row_index Document.last_line_number Document.num_rows
      dsimp only
      omega)
  · obtain ⟨p, o, hsh⟩ := move_cursor_shape
      ({ e with normal_command_buffer := ([] : List String) }) Direction.Down 12
    rw [hsh]

/-- Witness for C7: from row 0 of a 30-row document, `1`,`2`,`j` lands on
absolute row 12 and the repetition buffer is empty. -/
theorem c7_witness :
    ((((sampleEditor (List.replicate 30 "xxxx") 0 0 0 0 Mode.Normal).process_keystroke
          (Key.Char '1')).process_keystroke (Key.Char '2')).process_keystroke
        (Key.Char 'j')).current_row_index = 12 ∧
    ((((sampleEditor (List.replicate 30 "xxxx") 0 0 0 0 Mode.Normal).process_keystroke
          (Key.Char '1')).process_keystroke (Key.Char '2')).process_keystroke
        (Key.Char 'j')).normal_command_buffer = [] := by
  have h := c7_theorem (sampleEditor (List.replicate 30 "xxxx") 0 0 0 0 Mode.Normal)
    rfl rfl rfl (by decide)
  exact ⟨h.1.trans (by decide), h.2⟩

/-! ## Helper lemmas: the backspace line-join (for C8) -/

/-- `Document::delete` at `x = from_x = 0` on an interior row `i ≥ 1`
removes row `i` and appends its text to row `i − 1`. -/
theorem delete_join (d : Document) (i : Nat) (h1 : 1 ≤ i) (h2 : i < d.num_rows) :
    (d.delete 0 0 i).rows
      = d.rows.take (i - 1)
        ++ ((d.rows.get? (i - 1)).getD Row.defaultRow).append
            ((d.rows.get? i).getD Row.defaultRow)
          :: d.rows.drop (i + 1) := by
  obtain ⟨j, rfl⟩ : ∃ j, i = j + 1 := ⟨i - 1, by omega⟩
  have hlen : j + 1 < d.rows.length := by simpa [Document.num_rows] using h2
  unfold Document.delete
  rw [if_neg (by unfold Document.num_rows; omega)]
  cases hg : d.rows.get? (j + 1) with
  | none =>
    rw [List.get?_eq_none] at hg
    omega
  | some row =>
    dsimp only
    rw [if_pos ⟨rfl, rfl, by omega⟩]
    have hup := updateAt_removeAt_succ (fun previous_row => previous_row.append row)
      Row.defaultRow d.rows j hlen
    show updateAt (fun previous_row => previous_row.append row) (j + 1 - 1)
        (removeAt (j + 1) d.rows) = _
    rw [show j + 1 - 1 = j from rfl, hup]
    rfl

/-- Insert-mode Backspace at screen column 0 on a positive screen row: the
join branch, reduced to its constituent operations. -/
theorem insert_backspace_join (e : Editor)
    (hx : e.cursor_position.x = 0) (hy : 1 ≤ e.cursor_position.y) :
    e.process_insert_command Key.Backspace
      = (let E2 := ({ e with document := e.document.delete 0 0 e.current_row_index
            }).goto_x_y
            (((e.document.get_row (e.current_row_index - 1)).getD Row.defaultRow).len)
            (e.current_row_index - 1)
         let E3 := { E2 with unsaved_edits := min (E2.unsaved_edits + 1) 255 }
         if SWAP_SAVE_EVERY ≤ E3.unsaved_edits then E3.save_to_swap_file else E3) := by
  unfold Editor.process_insert_command
  dsimp only
  rw [if_pos hx, if_pos (show 0 < e.cursor_position.y by omega)]
  rfl

/-- As `insert_backspace_join`, but hiding which branch the swap-save
counter takes: the result is the post-join, post-goto state with some
unsaved-edit count. -/
theorem insert_backspace_join' (e : Editor)
    (hx : e.cursor_position.x = 0) (hy : 1 ≤ e.cursor_position.y) :
    ∃ u : Nat, e.process_insert_command Key.Backspace
      = { ({ e with document := e.document.delete 0 0 e.current_row_index }).goto_x_y
            (((e.document.get_row (e.current_row_index - 1)).getD Row.defaultRow).len)
            (e.current_row_index - 1) with
          unsaved_edits := u } := by
  rw [insert_backspace_join e hx hy]
  dsimp only
  unfold Editor.save_to_swap_file
  split_ifs
  · exact ⟨0, rfl⟩
  · exact ⟨_, rfl⟩

/-! ## C8: backspace at column 0 -/

/-- C8: the source gates the line-join on the screen-relative cursor row
(`cursor_position.y > 0`), not the absolute document row.  With the viewport
scrolled down one line and the cursor on screen row 0, the cursor sits at
absolute column 0 of absolute line 1 — a non-first line — in Insert mode,
yet Backspace leaves the document unchanged instead of joining. -/
theorem c8_counterexample :
    (sampleEditor ["ab", "cd"] 0 0 1 0 Mode.Insert).mode = Mode.Insert ∧
    (sampleEditor ["ab", "cd"] 0 0 1 0 Mode.Insert).current_x_position = 0 ∧
    0 < (sampleEditor ["ab", "cd"] 0 0 1 0 Mode.Insert).current_row_index ∧
    ((sampleEditor ["ab", "cd"] 0 0 1 0 Mode.Insert).process_keystroke
        Key.Backspace).document.rows = [Row.ofString "ab", Row.ofString "cd"] ∧
    [Row.ofString "ab", Row.ofString "cd"] ≠ [Row.ofString "abcd"] := by
  decide

/-- C8 (amended): in Insert mode with the cursor at absolute column 0 (zero
horizontal offset) and on a positive *screen* row — in particular, with an
unscrolled viewport this is exactly "absolute column 0 of a non-first
line" — Backspace removes the current absolute row `i`, appends its text to
row `i − 1`, and puts the cursor at absolute row `i − 1`, absolute column
equal to row `i − 1`'s length before the join (on a terminal of positive
width). -/
theorem c8_theorem (e : Editor)
    (hcb : e.command_buffer = "") (hmode : e.mode = Mode.Insert)
    (hx : e.cursor_position.x = 0) (hox : e.offset.columns = 0)
    (hy : 1 ≤ e.cursor_position.y)
    (hrow : e.current_row_index < e.document.num_rows)
    (htw : 1 ≤ e.term_width) :
    (e.process_keystroke Key.Backspace).document.rows
      = e.document.rows.take (e.current_row_index - 1)
        ++ ((e.document.rows.get? (e.current_row_index - 1)).getD Row.defaultRow).append
            ((e.document.rows.get? e.current_row_index).getD Row.defaultRow)
          :: e.document.rows.drop (e.current_row_index + 1) ∧
    (e.process_keystroke Key.Backspace).current_row_index = e.current_row_index - 1 ∧
    (e.process_keystroke Key.Backspace).current_x_position
      = ((e.document.rows.get? (e.current_row_index - 1)).getD Row.defaultRow).len := by
  have hrc : e.is_receiving_command = false := by
    unfold Editor.is_receiving_command
    rw [hcb]
    decide
  have hi : 1 ≤ e.current_row_index := by
    unfold Editor.current_row_index
    omega
  have hkey : e.process_keystroke Key.Backspace = e.process_insert_command Key.Backspace := by
    unfold Editor.process_keystroke
    rw [hrc]
    simp only [Bool.false_eq_true, if_false]
    conv_lhs => rw [hmode]
  obtain ⟨u, hu⟩ := insert_backspace_join' e hx hy
  rw [hkey, hu]
  have hjoin := delete_join e.document e.current_row_index hi hrow
  -- the document after the join is one row shorter
  have hnum : e.current_row_index - 1
      ≤ (e.document.delete 0 0 e.current_row_index).num_rows := by
    have hlen := congrArg List.length hjoin
    simp only [List.length_append, List.length_take, List.length_cons,
      List.length_drop] at hlen
    unfold Document.num_rows at hrow ⊢
    omega
  set E1 : Editor := { e with document := e.document.delete 0 0 e.current_row_index }
    with hE1
  set L := ((e.document.get_row (e.current_row_index - 1)).getD Row.defaultRow).len
    with hL
  obtain ⟨p, o, hsh⟩ := goto_x_y_shape E1 L (e.current_row_index - 1)
  refine ⟨?_, ?_, ?_⟩
  · show (E1.goto_x_y L (e.current_row_index - 1)).document.rows = _
    rw [hsh]
    show (e.document.delete 0 0 e.current_row_index).rows = _
    exact hjoin
  · show (E1.goto_x_y L (e.current_row_index - 1)).current_row_index = _
    exact current_row_index_goto_x_y E1 L (e.current_row_index - 1) hnum
  · show (E1.goto_x_y L (e.current_row_index - 1)).current_x_position = _
    exact current_x_position_goto_x_y E1 L (e.current_row_index - 1) hox htw

/-- Witness for C8's amended theorem: rows `"ab"`, `"cd"`, cursor on screen
row 1 with no scroll; Backspace yields the single row `"abcd"` with the
cursor at absolute column 2 of row 0. -/
theorem c8_witness :
    ((sampleEditor ["ab", "cd"] 0 1 0 0 Mode.Insert).process_keystroke
        Key.Backspace).document.rows = [Row.ofString "abcd"] ∧
    ((sampleEditor ["ab", "cd"] 0 1 0 0 Mode.Insert).process_keystroke
        Key.Backspace).current_row_index = 0 ∧
    ((sampleEditor ["ab", "cd"] 0 1 0 0 Mode.Insert).process_keystroke
        Key.Backspace).current_x_position = 2 := by
  have h := c8_theorem (sampleEditor ["ab", "cd"] 0 1 0 0 Mode.Insert)
    rfl rfl rfl rfl (by decide) (by decide) (by decide)
  exact ⟨h.1.trans (by decide), h.2.1.trans (by decide), h.2.2.trans (by decide)⟩

end Bo
